import Mathlib

/-!
Verification of the Cetamura batch-ingest tool core
(`src/main.py`, `src/validation.py`, `cetamura/core/*`).

The Python sources are shallowly embedded: pathlib paths become records of
directory components / stem / extension, parsed XML documents become a tree
type, the filesystem probes and PIL/zip collaborators become explicit oracle
inputs, and the `while True` collision loops are run on explicit fuel.
Python truthiness of strings (`if s:`) is modelled by `pyTruthy`.
-/

namespace Cetamura

/-- A filesystem path, as the pieces of `pathlib.Path` the program uses:
the containing directory (as components), the stem, and the suffix.
`name = stem ++ ext`, mirroring `Path.name = Path.stem + Path.suffix`. -/
structure SrcPath where
  dir : List String
  stem : String
  ext : String
deriving DecidableEq, Repr

def SrcPath.name (p : SrcPath) : String := p.stem ++ p.ext

/-- `Path.parent.name`, the last component of the containing directory. -/
def SrcPath.parentName (p : SrcPath) : String := p.dir.getLastD ""

/-- `str(path)`. -/
def SrcPath.render (p : SrcPath) : String :=
  String.intercalate "/" (p.dir ++ [p.name])

/-- Python truthiness of an optional string: `x is not None and x` is true
iff the value is present and non-empty. -/
def pyTruthy : Option String → Bool
  | none => false
  | some s => !(s == "")

/-- Python `str.strip()`: drop leading and trailing whitespace. -/
def pyStrip (s : String) : String :=
  String.mk (((s.data.dropWhile Char.isWhitespace).reverse.dropWhile Char.isWhitespace).reverse)

/-- An XML element as `xml.etree.ElementTree` presents it: a tag (with the
namespace URI folded in, Clark notation `{uri}local`), attributes, optional
text, and child elements. -/
inductive XmlElem where
  | node (tag : String) (attrs : List (String × String)) (text : Option String)
      (children : List XmlElem)

def XmlElem.tagOf : XmlElem → String
  | .node t _ _ _ => t

def XmlElem.attrsOf : XmlElem → List (String × String)
  | .node _ a _ _ => a

def XmlElem.textOf : XmlElem → Option String
  | .node _ _ x _ => x

def XmlElem.childrenOf : XmlElem → List XmlElem
  | .node _ _ _ cs => cs

/-- `elem.attrib[k]` / `elem.get(k)`: first binding of the attribute key. -/
def XmlElem.attr (e : XmlElem) (k : String) : Option String :=
  (e.attrsOf.find? (fun kv => kv.1 == k)).map (fun kv => kv.2)

mutual
/-- Document-order (preorder) listing of an element and its descendants. -/
def XmlElem.preorder : XmlElem → List XmlElem
  | .node t a x cs => .node t a x cs :: preorderList cs

def preorderList : List XmlElem → List XmlElem
  | [] => []
  | c :: cs => c.preorder ++ preorderList cs
end

/-- The elements `root.find(".//...")` searches: all proper descendants of
the root, in document order. -/
def XmlElem.descendants (e : XmlElem) : List XmlElem :=
  preorderList e.childrenOf

/-- Tag match for `.//mods:identifier[@type='IID']` under
`{'mods': 'http://www.loc.gov/mods/v3'}`. -/
def isIdentifierNS (e : XmlElem) : Bool :=
  e.tagOf == "\x7bhttp://www.loc.gov/mods/v3\x7didentifier" && e.attr "type" == some "IID"

/-- Tag match for the bare `.//identifier[@type='IID']`. -/
def isIdentifierBare (e : XmlElem) : Bool :=
  e.tagOf == "identifier" && e.attr "type" == some "IID"

/-- `identifier = root.find(...)` followed by
`if identifier is not None and identifier.text: return identifier.text.strip()`:
the lookup takes the FIRST matching element; if that element's text is falsy
(absent or empty) the whole lookup falls through to the next strategy. -/
def firstHitText (ds : List XmlElem) (p : XmlElem → Bool) : Option String :=
  match ds.find? p with
  | some e => if pyTruthy e.textOf then some (pyStrip (e.textOf.getD "")) else none
  | none => none

/-- The two failure modes of the identifier extractor: the document did not
parse at all, or it parsed but no recognized identifier was found. -/
inductive IidError where
  | parseError
  | missingIid
deriving DecidableEq, Repr

/-- `main.extract_iid_from_xml`: namespaced lookup, then bare lookup, then
`raise ValueError(...)`.  A parse failure propagates as a distinct error
(`none` input models an unparseable document). There is no attribute lookup. -/
def extract_iid_from_xml (doc : Option XmlElem) : Except IidError String :=
  match doc with
  | none => .error .parseError
  | some root =>
      let ds := root.descendants
      match firstHitText ds isIdentifierNS with
      | some s => .ok s
      | none =>
          match firstHitText ds isIdentifierBare with
          | some s => .ok s
          | none => .error .missingIid

/-- `main.extract_iid_from_xml_enhanced`: same two lookups, but every failure
(parse error included) is mapped to `None`. -/
def extract_iid_from_xml_enhanced (doc : Option XmlElem) : Option String :=
  match doc with
  | none => none
  | some root =>
      let ds := root.descendants
      match firstHitText ds isIdentifierNS with
      | some s => some s
      | none => firstHitText ds isIdentifierBare

/-- `cetamura.core.file_processing.extract_iid_from_xml`: bare `.//iid`,
bare `.//IID`, then the ROOT element's `iid` / `IID` attributes (stripped,
with no emptiness check); no namespaced lookup. -/
def extract_iid_core (doc : Option XmlElem) : Except IidError String :=
  match doc with
  | none => .error .parseError
  | some root =>
      let ds := root.descendants
      match firstHitText ds (fun e => e.tagOf == "iid") with
      | some s => .ok s
      | none =>
          match firstHitText ds (fun e => e.tagOf == "IID") with
          | some s => .ok s
          | none =>
              match root.attr "iid" with
              | some v => .ok (pyStrip v)
              | none =>
                  match root.attr "IID" with
                  | some v => .ok (pyStrip v)
                  | none => .error .missingIid

/-- The identifier cascade as the specification words it (spec section 4.1),
for comparison with the code: namespaced element lookup, then bare element
lookup, then an attribute lookup, with empty or whitespace-only text treated
as not-found at every stage. -/
def extract_iid_spec_model (root : XmlElem) : Option String :=
  let ds := root.descendants
  let hit : (XmlElem → Bool) → Option String := fun p =>
    match ds.find? p with
    | some e =>
        let t := pyStrip (e.textOf.getD "")
        if t == "" then none else some t
    | none => none
  let attrHit : String → Option String := fun k =>
    match root.attr k with
    | some v => if pyStrip v == "" then none else some (pyStrip v)
    | none => none
  match hit isIdentifierNS with
  | some s => some s
  | none =>
      match hit isIdentifierBare with
      | some s => some s
      | none =>
          match attrHit "iid" with
          | some s => some s
          | none => attrHit "IID"

/-! ## `main.sanitize_name` -/

/-- The characters of the character class in `re.sub(r'[<>:"/\\|?*]', ...)`. -/
def invalidChars : List Char := ['<', '>', ':', '"', '/', '\\', '|', '?', '*']

/-- ASCII reading of the regex word class `\w`. -/
def isWordChar (c : Char) : Bool := c.isAlphanum || c == '_'

/-- `re.sub(r'_+', '_', s)`: collapse runs of underscores to one. -/
def collapseUnderscoreRuns : List Char → List Char
  | [] => []
  | [c] => [c]
  | a :: b :: rest =>
      if a == '_' && b == '_' then collapseUnderscoreRuns (b :: rest)
      else a :: collapseUnderscoreRuns (b :: rest)

/-- `main.sanitize_name`. -/
def sanitize_name (name : String) : String :=
  if name == "" || pyStrip name == "" then ""
  else
    let s := (pyStrip name).data
    let s :=
      if s.any (fun c => c == ' ' || invalidChars.contains c) then
        collapseUnderscoreRuns
          ((s.map (fun c => if c == ' ' then '_' else c)).map
            (fun c => if invalidChars.contains c then '_' else c))
      else s
    let s := s.filter (fun c => !(c == '.'))
    let s := s.filter (fun c => isWordChar c || c == '-' || c == '_')
    String.mk s

/-! ## Collision-avoidance suffixing (`main.rename_files`, `main.package_to_zip`)

The filesystem is an oracle `occupied : String → Bool` telling whether a
name already exists in the target directory; the `while True` loops are run
on explicit fuel (`none` = fuel exhausted, i.e. the unbounded loop has not
yet found a free candidate). -/

/-- `chr(97 + suffix)`: the suffix character for attempt `k` (`_a`, `_b`, ...,
and past `'z'` simply the next code points). -/
def suffixChar (k : Nat) : Char := Char.ofNat (97 + k)

def renameCandTiff (base : String) (k : Nat) : String :=
  base ++ "_" ++ (suffixChar k).toString ++ ".tiff"

def renameCandXml (base : String) (k : Nat) : String :=
  base ++ "_" ++ (suffixChar k).toString ++ ".xml"

/-- The suffix loop of `rename_files`: starting at attempt `k`, find the first
attempt whose `.tiff` AND `.xml` candidates are both free. -/
def renameSuffixSearch (occupied : String → Bool) (base : String) :
    Nat → Nat → Option Nat
  | 0, _ => none
  | fuel + 1, k =>
      if !occupied (renameCandTiff base k) && !occupied (renameCandXml base k) then some k
      else renameSuffixSearch occupied base fuel (k + 1)

/-- `main.rename_files`, reduced to the name computation inside one directory:
given the current names of the converted TIFF and of the XML file, return the
pair of target names. The actual `Path.rename` calls are filesystem effects
recorded by the pipeline model. -/
def rename_files (occupied : String → Bool) (tiffName xmlName : String)
    (iid : String) (fuel : Nat) : Option (String × String) :=
  let base := sanitize_name iid
  let newTiff := base ++ ".tiff"
  let newXml := base ++ ".xml"
  let conflict :=
    (occupied newTiff && !(newTiff == tiffName)) ||
    (occupied newXml && !(newXml == xmlName))
  if conflict then
    match renameSuffixSearch occupied base fuel 0 with
    | some k => some (renameCandTiff base k, renameCandXml base k)
    | none => none
  else some (newTiff, newXml)

def zipCand (base : String) (k : Nat) : String :=
  base ++ "_" ++ (suffixChar k).toString ++ ".zip"

/-- The suffix loop of `package_to_zip`. -/
def zipSuffixSearch (occupied : String → Bool) (base : String) :
    Nat → Nat → Option Nat
  | 0, _ => none
  | fuel + 1, k =>
      if !occupied (zipCand base k) then some k
      else zipSuffixSearch occupied base fuel (k + 1)

/-- The container-name computation of `main.package_to_zip`:
`sanitize_name(base_name) + ".zip"`, with the same letter-suffix scheme when
the name exists in the output folder (`base_name` is the renamed TIFF's stem). -/
def package_zip_name (occupied : String → Bool) (baseName : String)
    (fuel : Nat) : Option String :=
  let base := sanitize_name baseName
  if occupied (base ++ ".zip") then
    (zipSuffixSearch occupied base fuel 0).map (zipCand base)
  else some (base ++ ".zip")

/-! ## Scan output and the Set Assembler
(`main.find_all_files_recursive` output, `main.group_files_by_directory`,
`main.find_hierarchical_sets`, `main.validate_photo_set`,
`main.find_photo_sets_enhanced`)

Directories are lists of components; `isPrefixOf` on component lists models
`manifest_dir in f.parents or f.parent == manifest_dir`. -/

/-- Python substring test `sub in hay` (on the underlying character lists). -/
def listContainsInfix [BEq α] (needle : List α) : List α → Bool
  | [] => needle.isEmpty
  | a :: rest => needle.isPrefixOf (a :: rest) || listContainsInfix needle rest

/-- Python `sub in hay` for strings. -/
def strContains (hay sub : String) : Bool := listContainsInfix sub.data hay.data

/-- An image file together with the collaborator oracles the pipeline consults
about it: whether PIL reports an EXIF orientation needing correction
(`validate_image_orientation`) and whether `convert_to_tiff` succeeds. -/
structure ImgFile where
  path : SrcPath
  needs_correction : Bool
  orientation_name : String
  convert_ok : Bool

/-- A metadata file together with its parsed content
(`none` = the document does not parse). -/
structure XmlFile where
  path : SrcPath
  doc : Option XmlElem

/-- The classification `find_all_files_recursive` returns: image files,
XML metadata files and `manifest.ini` files (matched case-insensitively by
name, so one directory can hold several case-variant manifests). -/
structure ScanFiles where
  image : List ImgFile
  xml : List XmlFile
  manifest : List SrcPath

/-- `main.PhotoSet`. -/
structure PhotoSet where
  base_directory : List String
  image_files : List ImgFile
  xml_files : List XmlFile
  manifest_file : SrcPath
  structure_type : String

/-- One entry of `group_files_by_directory`'s result. -/
structure FileGroup where
  directory : List String
  image_files : List ImgFile
  xml_files : List XmlFile
  manifest_files : List SrcPath

/-- Keys of a `defaultdict` in insertion order: first occurrence wins. -/
def seenInOrder [BEq α] (l : List α) : List α :=
  l.foldl (fun acc d => if acc.contains d then acc else acc ++ [d]) []

/-- `main.group_files_by_directory`: group all classified files by their
parent directory, keys ordered by first appearance over images, then XML
files, then manifests (the iteration order of the `files` dict). -/
def group_files_by_directory (files : ScanFiles) : List FileGroup :=
  let dirs := seenInOrder
    (files.image.map (fun f => f.path.dir) ++ files.xml.map (fun f => f.path.dir) ++
      files.manifest.map (fun f => f.dir))
  dirs.map (fun d =>
    { directory := d
      image_files := files.image.filter (fun f => f.path.dir == d)
      xml_files := files.xml.filter (fun f => f.path.dir == d)
      manifest_files := files.manifest.filter (fun f => f.dir == d) })

/-- `manifest_dir in f.parents or f.parent == manifest_dir`: the manifest's
directory is an ancestor-or-equal of the file's directory. -/
def isUnder (mdir fdir : List String) : Bool := mdir.isPrefixOf fdir

/-- `for parent in file.parents: if parent.parent == manifest_dir: ...` —
the file's ancestor directory that is an immediate child of `mdir`
(`none` when the loop finds no such parent and the file is dropped). -/
def immediateSubdir? (mdir : List String) (f : SrcPath) : Option (List String) :=
  (((List.range (f.dir.length + 1)).reverse).map (fun n => f.dir.take n)).find?
    (fun p => p.dropLast == mdir)

/-- The `subdir_groups` key a file of the hierarchical pass lands under. -/
def subdirKey (mdir : List String) (f : SrcPath) : Option (List String) :=
  if f.dir == mdir then some mdir else immediateSubdir? mdir f

/-- `main.find_hierarchical_sets`: one pass per manifest file. -/
def find_hierarchical_sets (files : ScanFiles) : List PhotoSet :=
  files.manifest.flatMap (fun m =>
    let mdir := m.dir
    let aImg := files.image.filter (fun f => isUnder mdir f.path.dir)
    let aXml := files.xml.filter (fun f => isUnder mdir f.path.dir)
    if aImg.isEmpty || aXml.isEmpty then []
    else if aImg.any (fun f => !(f.path.dir == mdir)) ||
        aXml.any (fun f => !(f.path.dir == mdir)) then
      let keys := seenInOrder
        (aImg.filterMap (fun f => subdirKey mdir f.path) ++
          aXml.filterMap (fun f => subdirKey mdir f.path))
      keys.filterMap (fun k =>
        let gi := aImg.filter (fun f => subdirKey mdir f.path == some k)
        let gx := aXml.filter (fun f => subdirKey mdir f.path == some k)
        if gi.isEmpty || gx.isEmpty then none
        else some ⟨k, gi, gx, m, "hierarchical"⟩)
    else
      [⟨mdir, aImg, aXml, m, "standard"⟩])

/-- `main.validate_photo_set`: needs at least one XML file, and at least one
XML file whose enhanced extraction yields a truthy (non-empty) identifier;
an empty image list is explicitly allowed (global-recovery candidate). -/
def validate_photo_set (ps : PhotoSet) : Bool :=
  if ps.xml_files.isEmpty then false
  else !(ps.xml_files.countP
      (fun x => pyTruthy (extract_iid_from_xml_enhanced x.doc)) == 0)

/-- The standard PhotoSet the direct-grouping pass builds from a group,
taking the FIRST manifest when the group holds several. -/
def mkDirectSet (g : FileGroup) (m : SrcPath) : PhotoSet :=
  ⟨g.directory, g.image_files, g.xml_files, m, "standard"⟩

/-- One step of the direct-grouping loop in `find_photo_sets_enhanced`:
skip the group when its directory is already a base directory, require
`group['xml_files'] and group['manifest_files']` (non-empty), validate,
and append. -/
def directGroupStep (acc : List PhotoSet) (g : FileGroup) : List PhotoSet :=
  if acc.any (fun ps => ps.base_directory == g.directory) then acc
  else
    match g.xml_files, g.manifest_files with
    | _ :: _, m :: _ =>
        let ps := mkDirectSet g m
        if validate_photo_set ps then acc ++ [ps] else acc
    | _, _ => acc

/-- `main.find_photo_sets_enhanced` (with the default
`flexible_structure=True`): validated hierarchical sets first, then the
direct-grouping pass with its base-directory dedup. -/
def find_photo_sets_enhanced (files : ScanFiles) : List PhotoSet :=
  let init := (find_hierarchical_sets files).filter validate_photo_set
  (group_files_by_directory files).foldl directGroupStep init

/-! ## Global recovery index and the pairing cascade
(`main.batch_process_with_safety_nets`, lines 1139-1200) -/

/-- One assignment `global_image_index[fpath.stem] = fpath`: a Python dict
keeps the key at its first position and overwrites the value. -/
def indexInsert (acc : List (String × ImgFile)) (p : ImgFile) :
    List (String × ImgFile) :=
  if acc.any (fun kv => kv.1 == p.path.stem) then
    acc.map (fun kv => if kv.1 == p.path.stem then (kv.1, p) else kv)
  else acc ++ [(p.path.stem, p)]

/-- The process-wide stem → image index, built once per run from the scan. -/
def buildGlobalIndex (imgs : List ImgFile) : List (String × ImgFile) :=
  imgs.foldl indexInsert []

/-- `global_image_index[k]` lookup. -/
def indexLookup (idx : List (String × ImgFile)) (k : String) : Option ImgFile :=
  (idx.find? (fun kv => kv.1 == k)).map (fun kv => kv.2)

/-- The four-strategy pairing cascade, with a flag telling whether the match
came from the global index (strategy 4), which is what triggers the
CROSS_LINK audit row:
1. first image whose stem equals the metadata file's stem;
2. first image whose filename contains the identifier as a substring;
3. the lone image, when the set has exactly one image and one XML file;
4. global index lookup by the metadata file's stem. -/
def resolveImageG (ps : PhotoSet) (xml : XmlFile) (iid : String)
    (gidx : List (String × ImgFile)) : Option ImgFile × Bool :=
  match ps.image_files.find? (fun i => i.path.stem == xml.path.stem) with
  | some i => (some i, false)
  | none =>
      match ps.image_files.find? (fun i => strContains i.path.name iid) with
      | some i => (some i, false)
      | none =>
          if ps.image_files.length == 1 && ps.xml_files.length == 1 then
            (ps.image_files.head?, false)
          else
            match indexLookup gidx xml.path.stem with
            | some i => (some i, true)
            | none => (none, false)

def resolveImage (ps : PhotoSet) (xml : XmlFile) (iid : String)
    (gidx : List (String × ImgFile)) : Option ImgFile :=
  (resolveImageG ps xml iid gidx).1

/-! ## Per-record processing and the run
(`main.process_file_set_with_context`, `main.batch_process_with_safety_nets`) -/

/-- One row of the audit CSV (header
`IID, XML_Path, JPG_Path, Status, Action, Notes`). -/
structure AuditRow where
  iid : String
  xmlPath : String
  imgPath : String
  status : String
  action : String
  notes : String
deriving DecidableEq, Repr

/-- A filesystem mutation performed by the run. Read-only accesses (EXIF
probe, globbing, reading XML) are not mutations and are not recorded. -/
inductive FsEffect where
  | mkdirP (d : List String)
  | createFile (d : List String) (name : String)
  | deleteFile (d : List String) (name : String)
  | renameFile (fromDir : List String) (fromName : String)
      (toDir : List String) (toName : String)
deriving DecidableEq, Repr

/-- `main.BatchContext` (the CSV handles are implicit in the model). -/
structure BatchCtx where
  output_dir : List String
  dry_run : Bool
  staging : Bool

structure StepResult where
  ok : Bool
  rows : List AuditRow
  effects : List FsEffect

def optXmlRender : Option XmlFile → String
  | some x => x.path.render
  | none => "None"

def dryRunNotes (img : ImgFile) : String :=
  if img.needs_correction then
    "Would process successfully (would correct " ++ img.orientation_name ++ ")"
  else "Would process successfully"

def successNotes (img : ImgFile) : String :=
  if img.needs_correction then
    "Successfully packaged (corrected " ++ img.orientation_name ++ ")"
  else "Successfully packaged"

/-- The renamed stem chosen by `rename_files` (same search as
`rename_files`; the returned file names are this stem + `.tiff` / `.xml`,
and `package_to_zip` uses this stem as the container base name). -/
def rename_stem (occupied : String → Bool) (tiffName xmlName iid : String)
    (fuel : Nat) : Option String :=
  let base := sanitize_name iid
  let conflict :=
    (occupied (base ++ ".tiff") && !(base ++ ".tiff" == tiffName)) ||
    (occupied (base ++ ".xml") && !(base ++ ".xml" == xmlName))
  if conflict then
    (renameSuffixSearch occupied base fuel 0).map
      (fun k => base ++ "_" ++ (suffixChar k).toString)
  else some base

/-- `main.process_file_set_with_context`. The oracles: `iniInSub` is what
`subfolder.glob("*.ini")` returns, `occupiedSub` / `occupiedOut` answer the
`exists()` probes of the rename / zip collision loops. A `rows := oriRows`
result with `ok := false` and no further row only arises from fuel
exhaustion of the unbounded collision loop (which, in the source, is the
loop not having terminated yet). -/
def process_file_set_with_context (image : Option ImgFile) (xml : Option XmlFile)
    (iid : String) (subfolder : List String) (ctx : BatchCtx)
    (iniInSub : List SrcPath) (occupiedSub occupiedOut : String → Bool)
    (fuel : Nat) : StepResult :=
  match image with
  | none =>
      ⟨false, [⟨iid, optXmlRender xml, "N/A", "WARNING", "ORPHANED_XML",
        "No matching Image found"⟩], []⟩
  | some img =>
      let xmlS := optXmlRender xml
      let imgS := img.path.render
      let oriRows : List AuditRow :=
        if img.needs_correction then
          [⟨iid, xmlS, imgS, "INFO", "ORIENTATION",
            "Detected: " ++ img.orientation_name⟩]
        else []
      if ctx.dry_run then
        ⟨true, oriRows ++ [⟨iid, xmlS, imgS, "SUCCESS", "DRY_RUN", dryRunNotes img⟩], []⟩
      else if !img.convert_ok then
        ⟨false, oriRows ++ [⟨iid, xmlS, imgS, "ERROR", "CONVERT_FAILED",
          "Image to TIFF conversion failed"⟩], []⟩
      else
        let tiffName := img.path.stem ++ ".tiff"
        let convEff := [FsEffect.createFile img.path.dir tiffName,
          FsEffect.deleteFile img.path.dir img.path.name]
        match xml with
        | none =>
            ⟨false, oriRows ++ [⟨iid, "N/A", imgS, "ERROR", "MISSING_XML",
              "XML file is None"⟩], convEff⟩
        | some x =>
            match rename_stem occupiedSub tiffName x.path.name iid fuel with
            | none => ⟨false, oriRows, convEff⟩
            | some st =>
                let renEff := [FsEffect.renameFile img.path.dir tiffName
                    subfolder (st ++ ".tiff"),
                  FsEffect.renameFile x.path.dir x.path.name subfolder (st ++ ".xml")]
                match iniInSub with
                | [] =>
                    ⟨false, oriRows ++ [⟨iid, xmlS, imgS, "ERROR", "NO_MANIFEST",
                      "No manifest file found"⟩], convEff ++ renEff⟩
                | _ :: _ =>
                    match package_zip_name occupiedOut st fuel with
                    | none => ⟨false, oriRows, convEff ++ renEff⟩
                    | some zipName =>
                        ⟨true, oriRows ++ [⟨iid, xmlS, imgS, "SUCCESS",
                          "PROCESSED", successNotes img⟩],
                          convEff ++ renEff ++ [FsEffect.mkdirP ctx.output_dir,
                            FsEffect.createFile ctx.output_dir zipName]⟩

/-- How one record ended: counted success, counted error, the uncounted
MISSING_IMAGE warning, or the per-record exception path (identifier
extraction failed). -/
inductive RecOutcome where
  | success
  | failure
  | missingImage
  | extractError
deriving DecidableEq, Repr

structure RecResult where
  outcome : RecOutcome
  rows : List AuditRow
  effects : List FsEffect

/-- Stand-ins for `str(e)` of the two extraction exceptions. -/
def iidErrorNotes (e : IidError) (xml : XmlFile) : String :=
  match e with
  | .parseError => "XML parse error in " ++ xml.path.render
  | .missingIid => "Missing or invalid identifier IID in " ++ xml.path.render

/-- One iteration of the record loop (`for xml_file in photo_set.xml_files`),
main.py 1152-1225: extract the identifier, run the cascade, write the
CROSS_LINK row on a strategy-4 recovery, write the MISSING_IMAGE row and
`continue` when nothing matched, otherwise process the pair. A raising
iteration is caught by the per-record `except`, so every record yields a
result and the loop never aborts the batch. -/
def recordStep (ps : PhotoSet) (gidx : List (String × ImgFile)) (ctx : BatchCtx)
    (iniInSub : List SrcPath) (occupiedSub occupiedOut : String → Bool)
    (fuel : Nat) (xml : XmlFile) : RecResult :=
  match extract_iid_from_xml xml.doc with
  | .error e =>
      ⟨.extractError, [⟨"UNKNOWN", xml.path.render, "", "ERROR", "PROCESSING",
        iidErrorNotes e xml⟩], []⟩
  | .ok iid =>
      match resolveImageG ps xml iid gidx with
      | (none, _) =>
          ⟨.missingImage, [⟨iid, xml.path.render, "N/A", "WARNING",
            "MISSING_IMAGE", "No matching Image file found"⟩], []⟩
      | (some img, viaGlobal) =>
          let crossRows : List AuditRow :=
            if viaGlobal then
              [⟨iid, xml.path.render, img.path.render, "WARNING", "CROSS_LINK",
                "Image recovered from: " ++ img.path.parentName⟩]
            else []
          let step := process_file_set_with_context (some img) (some xml) iid
            ps.base_directory ctx iniInSub occupiedSub occupiedOut fuel
          ⟨if step.ok then .success else .failure, crossRows ++ step.rows,
            step.effects⟩

/-! ## Pre-flight checks (`validation.pre_flight_checks`)

Python float quantities are modelled exactly as rationals; the probes
(`shutil.disk_usage`, the `.write_test` touch/unlink, the `*_PROC` globs)
are environment inputs. -/

structure PreFlightResult where
  passed : Bool
  disk_space_gb : ℚ
  required_space_gb : ℚ
  orphaned_tiff_count : Nat
  orphaned_xml_count : Nat
  warnings : List String
  blockers : List String
deriving DecidableEq, Repr

structure PreFlightEnv where
  /-- `shutil.disk_usage(output_dir).free`, in bytes;
  `none` models the call raising. -/
  disk_free_bytes : Option Nat
  write_probe_ok : Bool
  orphaned_tiff : Nat
  orphaned_xml : Nat

/-- Exact truth of `bytes / 2^30 < (totalFiles * 10) / 1024` (the
`disk_space_gb < required_space_gb` comparison), cross-multiplied so it
computes over naturals. -/
def diskBelowRequired (bytes totalFiles : Nat) : Bool :=
  decide (bytes * 1024 < totalFiles * 10 * 1073741824)

/-- Exact truth of `bytes / 2^30 < (totalFiles * 10) / 1024 * 1.5`. -/
def diskBelowMargin (bytes totalFiles : Nat) : Bool :=
  decide (bytes * 1024 * 2 < totalFiles * 10 * 3 * 1073741824)

/-- `validation.pre_flight_checks`; `totalFiles` is
`sum(len(ps.xml_files) for ps in photo_sets)`. The message strings stand in
for the formatted originals; the float comparisons are taken at their exact
rational value (on the exception path `disk_space_gb` is `0.0`, so the
shortfall test degenerates to `0 < required`). -/
def pre_flight_checks (totalFiles : Nat) (env : PreFlightEnv) : PreFlightResult :=
  let diskPair : List String × ℚ :=
    match env.disk_free_bytes with
    | some b => ([], (b : ℚ) / 1073741824)
    | none => (["Cannot check disk space"], 0)
  let required : ℚ := (totalFiles * 10 : ℚ) / 1024
  let insufficient :=
    match env.disk_free_bytes with
    | some b => diskBelowRequired b totalFiles
    | none => decide (0 < totalFiles)
  let lowWarn := !insufficient &&
    (match env.disk_free_bytes with
      | some b => diskBelowMargin b totalFiles
      | none => decide (0 < totalFiles))
  let orphanWarn := decide (0 < env.orphaned_tiff + env.orphaned_xml)
  let blockers := diskPair.1 ++
    (if insufficient then ["Insufficient disk space"] else []) ++
    (if env.write_probe_ok then [] else ["No write permission to output directory"])
  let warnings := (if lowWarn then ["Low disk space"] else []) ++
    (if orphanWarn then ["Found orphaned files"] else [])
  ⟨blockers.isEmpty, diskPair.2, required, env.orphaned_tiff, env.orphaned_xml,
    warnings, blockers⟩

/-! ## The run (`main.batch_process_with_safety_nets`) -/

structure RunInput where
  root : List String
  dryRun : Bool
  staging : Bool
  /-- Timestamped report file stem, `batch_report_YYYYmmdd_HHMMSS`. -/
  csvBase : String
  /-- What `find_all_files_recursive(folder_path)` returns. -/
  files : ScanFiles
  env : PreFlightEnv
  /-- Whether `open(csv_path, 'w')` succeeds. -/
  csvOpenOk : Bool
  /-- All `.ini` files in the tree (what the `subfolder.glob("*.ini")`
  probes see), in directory-listing order. -/
  allIni : List SrcPath
  /-- `exists()` oracle for rename candidates in a set's directory. -/
  occupiedSub : String → Bool
  /-- `exists()` oracle for container names in the output directory. -/
  occupiedOut : String → Bool

structure RunResult where
  success_count : Nat
  error_count : Nat
  csvPath : SrcPath
  rows : List AuditRow
  effects : List FsEffect

def headerRow : AuditRow :=
  ⟨"IID", "XML_Path", "JPG_Path", "Status", "Action", "Notes"⟩

def summaryRow (s e : Nat) (dry : Bool) : AuditRow :=
  ⟨"SUMMARY", "", "", "Success: " ++ toString s, "Errors: " ++ toString e,
    "Dry run: " ++ (if dry then "True" else "False")⟩

def totalXmlCount (sets : List PhotoSet) : Nat :=
  (sets.map (fun ps => ps.xml_files.length)).sum

def outputDirOf (root : List String) (staging : Bool) : List String :=
  root ++ [if staging then "staging_output" else "output"]

/-- The record loop of `main.batch_process_with_safety_nets`: enhanced
detection, the global image index built from the same scan, then one
`recordStep` per metadata file of every photo set, strictly in order. -/
def runRecs (inp : RunInput) (fuel : Nat) : List RecResult :=
  let ctx : BatchCtx := ⟨outputDirOf inp.root inp.staging, inp.dryRun, inp.staging⟩
  let photo_sets := find_photo_sets_enhanced inp.files
  let gidx := buildGlobalIndex inp.files.image
  photo_sets.flatMap (fun ps =>
    ps.xml_files.map (recordStep ps gidx ctx
      (inp.allIni.filter (fun f => f.dir == ps.base_directory))
      inp.occupiedSub inp.occupiedOut fuel))

/-- `main.batch_process_with_safety_nets`.

The pre-flight phase (main.py 1087-1111) computes the check result and, on
blockers, raises `RuntimeError("Pre-flight checks failed. Aborting batch
processing.")` — but that raise sits inside the same `try` whose
`except Exception` logs "Pre-flight checks skipped due to error" and falls
through, so the run continues regardless of the check's outcome and the
result is not consulted further.  What does propagate to the caller is the
outermost handler's re-raise (main.py 1312-1314), e.g. when the CSV report
file cannot be opened. -/
def batch_run (inp : RunInput) (fuel : Nat) : Except String RunResult :=
  let output_dir := outputDirOf inp.root inp.staging
  let csvDir := if inp.dryRun then inp.root else output_dir
  let csvName := inp.csvBase ++ ".csv"
  let csvPath : SrcPath := ⟨csvDir, inp.csvBase, ".csv"⟩
  let dirEff := if inp.dryRun then [FsEffect.mkdirP inp.root]
    else [FsEffect.mkdirP output_dir]
  let prelim := find_photo_sets_enhanced inp.files
  let _pf := pre_flight_checks (totalXmlCount prelim) inp.env
  if !inp.csvOpenOk then
    .error "Critical error in batch process: cannot open CSV report"
  else
    let recs := runRecs inp fuel
    let s := recs.countP (fun r => r.outcome == .success)
    let e := recs.countP (fun r =>
      r.outcome == .failure || r.outcome == .extractError)
    .ok ⟨s, e, csvPath,
      headerRow :: (recs.flatMap (fun r => r.rows) ++ [summaryRow s e inp.dryRun]),
      dirEff ++ [FsEffect.createFile csvDir csvName] ++
        recs.flatMap (fun r => r.effects)⟩

/-! ## Post-flight validation (`validation.verify_zip_contents`,
`validation.generate_reconciliation_report`) -/

/-- A container in the output directory: its file name, whether `zipfile`
can read it, and its member list. -/
structure ZipFile where
  name : String
  readable : Bool
  namelist : List String
deriving DecidableEq, Repr

/-- ASCII model of Python `str.lower()` (file names here are ASCII). -/
def asciiLowerChar (c : Char) : Char :=
  if 'A' ≤ c && c ≤ 'Z' then Char.ofNat (c.toNat + 32) else c

def strToLower (s : String) : String := String.mk (s.data.map asciiLowerChar)

/-- Python `str.endswith`. -/
def strEndsWith (s suffixStr : String) : Bool :=
  suffixStr.data.isSuffixOf s.data

def isTiffName (s : String) : Bool :=
  strEndsWith (strToLower s) ".tif" || strEndsWith (strToLower s) ".tiff"

def isXmlName (s : String) : Bool := strEndsWith (strToLower s) ".xml"

def isManifestName (s : String) : Bool := strToLower s == "manifest.ini"

/-- `validation.verify_zip_contents`: valid iff readable, exactly three
members, and one TIFF + one XML + one `manifest.ini` among them. -/
def verify_zip_contents (z : ZipFile) : Bool × List String :=
  if !z.readable then (false, ["Corrupted ZIP file"])
  else
    let n := z.namelist.length
    let errs :=
      (if !(n == 3) then ["Expected 3 files, found " ++ toString n] else []) ++
      (if !(z.namelist.any isTiffName) then ["Missing TIFF file"] else []) ++
      (if !(z.namelist.any isXmlName) then ["Missing XML file"] else []) ++
      (if !(z.namelist.any isManifestName) then ["Missing manifest.ini"] else [])
    (errs.isEmpty, errs)

structure ReconciliationReport where
  input_xml_count : Nat
  csv_success_rows : Nat
  actual_zip_count : Nat
  valid_zip_count : Nat
  discrepancies : List String
  orphaned_files : List String
deriving DecidableEq, Repr

/-- `validation.generate_reconciliation_report`. Inputs: the per-set XML
counts, the rows of the CSV report (header excluded, as `csv.DictReader`
skips it), the `*.zip` files in the output directory, and the base names of
the `*_PROC.tif` / `*_PROC.xml` leftovers found there. -/
def generate_reconciliation_report (photoSetXmlCounts : List Nat)
    (csvRows : List AuditRow) (zips : List ZipFile)
    (procTifBases procXmlBases : List String) : ReconciliationReport :=
  let inputXml := photoSetXmlCounts.sum
  let succ := csvRows.countP (fun r => r.status == "SUCCESS")
  let actual := zips.length
  let valid := zips.countP (fun z => (verify_zip_contents z).1)
  let orphans :=
    (procTifBases.filter (fun b =>
      !(zips.any (fun z => z.name == b ++ ".zip")))).map (fun b => b ++ "_PROC.tif") ++
    (procXmlBases.filter (fun b =>
      !(zips.any (fun z => z.name == b ++ ".zip")))).map (fun b => b ++ "_PROC.xml")
  let disc :=
    (if !(inputXml == succ) then
      ["Input XML count (" ++ toString inputXml ++ ") != CSV SUCCESS rows (" ++
        toString succ ++ ")"] else []) ++
    (if !(succ == actual) then
      ["CSV SUCCESS rows (" ++ toString succ ++ ") != Actual ZIP count (" ++
        toString actual ++ ")"] else []) ++
    (if !(actual == valid) then
      ["Actual ZIP count (" ++ toString actual ++ ") != Valid ZIP count (" ++
        toString valid ++ ")"] else [])
  ⟨inputXml, succ, actual, valid, disc, orphans⟩

/-! ## C2: collision-avoidance suffixing -/

/-- A directory holding `DUP.tiff` and all 26 letter-suffixed variants
`DUP_a.tiff` … `DUP_z.tiff`: 27 collisions for identifier `DUP`. -/
def dupNames : List String :=
  ["DUP.tiff"] ++ (List.range 26).map (fun k => renameCandTiff "DUP" k)

def dupOcc : String → Bool := fun s => dupNames.contains s

/-- The analogous output directory for the archive step. -/
def dupZipNames : List String :=
  ["DUP.zip"] ++ (List.range 26).map (fun k => zipCand "DUP" k)

def dupZipOcc : String → Bool := fun s => dupZipNames.contains s

/-! ## C4: the Identifier Extractor -/

/-- A parsed document whose only identifier ELEMENT holds whitespace-only
text, while an `iid` ATTRIBUTE on the root carries a real value. -/
def c4attrIdentDoc : XmlElem :=
  .node "record" [("iid", "ABC")] none
    [.node "identifier" [("type", "IID")] (some "   ") []]

/-- A document carrying a namespaced identifier with padded text. -/
def c4nsIdent : XmlElem :=
  .node "\x7bhttp://www.loc.gov/mods/v3\x7didentifier" [("type", "IID")]
    (some " FSU_Cetamura_2006 ") []

def c4nsDoc : XmlElem := .node "mods" [] none [c4nsIdent]

/-! ## C9: the pipeline cascade marks no image as used -/

def c9img : ImgFile := ⟨⟨["root", "set"], "A1_A2", ".jpg"⟩, false, "Normal", true⟩

def c9xml1 : XmlFile :=
  ⟨⟨["root", "set"], "rec1", ".xml"⟩,
    some (.node "m" [] none [.node "identifier" [("type", "IID")] (some "A1") []])⟩

def c9xml2 : XmlFile :=
  ⟨⟨["root", "set"], "rec2", ".xml"⟩,
    some (.node "m" [] none [.node "identifier" [("type", "IID")] (some "A2") []])⟩

def c9set : PhotoSet :=
  ⟨["root", "set"], [c9img], [c9xml1, c9xml2],
    ⟨["root", "set"], "MANIFEST", ".ini"⟩, "standard"⟩

/-! ## C5: the ordered pairing cascade -/

/-- A photo set with no local image; the global index, built from the whole
root, holds an image of the same stem living in a sibling directory. -/
def c5xml : XmlFile :=
  ⟨⟨["root", "setA"], "item7", ".xml"⟩,
    some (.node "m" [] none
      [.node "identifier" [("type", "IID")] (some "FSU_item7") []])⟩

def c5set : PhotoSet :=
  ⟨["root", "setA"], [], [c5xml], ⟨["root", "setA"], "MANIFEST", ".ini"⟩,
    "standard"⟩

def c5donor : ImgFile := ⟨⟨["root", "setB"], "item7", ".jpg"⟩, false, "Normal", true⟩

def c5ctx : BatchCtx := ⟨["root", "output"], true, false⟩

/-! ## C3 and C8: what the Set Assembler constructs -/

/-- A directory holding one valid metadata file and TWO manifest files
(`MANIFEST.ini` and the case-variant `Manifest.ini`, both classified as
manifests by the scanner's case-insensitive name test). -/
def c3xml : XmlFile :=
  ⟨⟨["root", "d1"], "item1", ".xml"⟩,
    some (.node "m" [] none
      [.node "identifier" [("type", "IID")] (some "FSU_item1") []])⟩

def c3man1 : SrcPath := ⟨["root", "d1"], "MANIFEST", ".ini"⟩

def c3man2 : SrcPath := ⟨["root", "d1"], "Manifest", ".ini"⟩

def c3files : ScanFiles := ⟨[], [c3xml], [c3man1, c3man2]⟩

def c3set : PhotoSet := ⟨["root", "d1"], [], [c3xml], c3man1, "standard"⟩

/-! C8 counterexample input: nested manifest directories — a manifest in `A`
and another in `A/B`, with one image/metadata pair in `A/B`. -/

def c8img : ImgFile := ⟨⟨["A", "B"], "p1", ".jpg"⟩, false, "Normal", true⟩

def c8xml : XmlFile :=
  ⟨⟨["A", "B"], "p1", ".xml"⟩,
    some (.node "m" [] none
      [.node "identifier" [("type", "IID")] (some "P1") []])⟩

def c8man1 : SrcPath := ⟨["A"], "MANIFEST", ".ini"⟩

def c8man2 : SrcPath := ⟨["A", "B"], "MANIFEST", ".ini"⟩

def c8files : ScanFiles := ⟨[c8img], [c8xml], [c8man1, c8man2]⟩

/-! ## C7: exact reconciliation on a clean run -/

def c7rows : List AuditRow :=
  [⟨"FSU_A", "root/s/FSU_A.xml", "root/s/FSU_A.jpg", "SUCCESS", "PROCESSED",
      "Successfully packaged"⟩,
    ⟨"FSU_B", "root/s/FSU_B.xml", "root/s/FSU_B.jpg", "SUCCESS", "PROCESSED",
      "Successfully packaged"⟩,
    summaryRow 2 0 false]

def c7zipA : ZipFile := ⟨"FSU_A.zip", true, ["FSU_A.tiff", "FSU_A.xml", "MANIFEST.ini"]⟩

def c7zipB : ZipFile := ⟨"FSU_B.zip", true, ["FSU_B.tiff", "FSU_B.xml", "MANIFEST.ini"]⟩

/-! ## C1: what a pre-flight blocker actually does to the run -/

def c1xml : XmlFile :=
  ⟨⟨["r", "d"], "rec1", ".xml"⟩,
    some (.node "m" [] none
      [.node "identifier" [("type", "IID")] (some "REC1") []])⟩

def c1img : ImgFile := ⟨⟨["r", "d"], "rec1", ".jpg"⟩, false, "Normal", true⟩

def c1man : SrcPath := ⟨["r", "d"], "MANIFEST", ".ini"⟩

def c1files : ScanFiles := ⟨[c1img], [c1xml], [c1man]⟩

/-- An output volume with zero free bytes: a genuine disk-space blocker. -/
def c1env : PreFlightEnv := ⟨some 0, true, 0, 0⟩

def c1inp : RunInput :=
  ⟨["r"], false, false, "batch_report_20251012_000000", c1files, c1env, true,
    [c1man], fun _ => false, fun _ => false⟩

def c1inpCsvFail : RunInput := { c1inp with csvOpenOk := false }

/-! ## C6 and C10: what a Preview run touches, and where the report lands -/

/-- A Preview-mode run over a root holding one metadata record with no
matching image anywhere. -/
def c6xml : XmlFile :=
  ⟨⟨["r", "d"], "alone", ".xml"⟩,
    some (.node "m" [] none
      [.node "identifier" [("type", "IID")] (some "ALONE") []])⟩

def c6man : SrcPath := ⟨["r", "d"], "MANIFEST", ".ini"⟩

def c6files : ScanFiles := ⟨[], [c6xml], [c6man]⟩

def c6inp : RunInput :=
  ⟨["r"], true, false, "batch_report_20251012_000001", c6files,
    ⟨some 107374182400, true, 0, 0⟩, true, [c6man],
    fun _ => false, fun _ => false⟩

/-- Tests whether an effect is a file creation. -/
def isCreateFileEff : FsEffect → Bool
  | .createFile _ _ => true
  | _ => false

/-- Helper: what the rename suffix loop returns, over any start index. -/
theorem renameSuffixSearch_spec (occupied : String → Bool) (base : String) :
    ∀ (fuel k0 k : Nat), renameSuffixSearch occupied base fuel k0 = some k →
      (occupied (renameCandTiff base k) = false ∧
        occupied (renameCandXml base k) = false) ∧
      k0 ≤ k ∧
      ∀ j, k0 ≤ j → j < k →
        (occupied (renameCandTiff base j) || occupied (renameCandXml base j)) = true := by
  intro fuel
  induction fuel with
  | zero => intro k0 k h; simp [renameSuffixSearch] at h
  | succ fuel ih =>
      intro k0 k h
      simp only [renameSuffixSearch] at h
      by_cases hc : (!occupied (renameCandTiff base k0) &&
          !occupied (renameCandXml base k0)) = true
      · rw [if_pos hc] at h
        cases h
        simp only [Bool.and_eq_true, Bool.not_eq_true'] at hc
        exact ⟨⟨hc.1, hc.2⟩, le_refl _, fun j hj hj2 => absurd hj2 (by omega)⟩
      · rw [if_neg hc] at h
        obtain ⟨hfree, hle, hbusy⟩ := ih (k0 + 1) k h
        refine ⟨hfree, by omega, fun j hj1 hj2 => ?_⟩
        rcases Nat.eq_or_lt_of_le hj1 with heq | hlt
        · subst heq
          rcases Bool.eq_false_or_eq_true (occupied (renameCandTiff base k0)) with h1 | h1 <;>
            rcases Bool.eq_false_or_eq_true (occupied (renameCandXml base k0)) with h2 | h2 <;>
              simp [h1, h2] at hc ⊢
        · exact hbusy j (by omega) hj2

/-- Helper: same for the archive-name suffix loop. -/
theorem zipSuffixSearch_spec (occupied : String → Bool) (base : String) :
    ∀ (fuel k0 k : Nat), zipSuffixSearch occupied base fuel k0 = some k →
      occupied (zipCand base k) = false ∧
      k0 ≤ k ∧
      ∀ j, k0 ≤ j → j < k → occupied (zipCand base j) = true := by
  intro fuel
  induction fuel with
  | zero => intro k0 k h; simp [zipSuffixSearch] at h
  | succ fuel ih =>
      intro k0 k h
      simp only [zipSuffixSearch] at h
      by_cases hc : (!occupied (zipCand base k0)) = true
      · rw [if_pos hc] at h
        cases h
        simp only [Bool.not_eq_true'] at hc
        exact ⟨hc, le_refl _, fun j hj hj2 => absurd hj2 (by omega)⟩
      · rw [if_neg hc] at h
        obtain ⟨hfree, hle, hbusy⟩ := ih (k0 + 1) k h
        refine ⟨hfree, by omega, fun j hj1 hj2 => ?_⟩
        rcases Nat.eq_or_lt_of_le hj1 with heq | hlt
        · subst heq
          rcases Bool.eq_false_or_eq_true (occupied (zipCand base k0)) with h1 | h1 <;>
            simp [h1] at hc ⊢
        · exact hbusy j (by omega) hj2

/-- C2, counterexample: with 27 collisions on identifier `DUP` (the base name
plus suffixes `_a` … `_z` all taken), neither the rename step nor the
archive-naming step raises a fatal error; both return the next candidate,
whose suffix character is `chr(97+26) = 0x7b`, the code point after `'z'`.
The claim, as stated, predicts a raised per-record error here. -/
theorem C2_suffix_no_cap_counterexample :
    rename_files dupOcc "orig.tiff" "orig.xml" "DUP" 30 =
      some ("DUP_\x7b.tiff", "DUP_\x7b.xml") ∧
    package_zip_name dupZipOcc "DUP" 30 = some "DUP_\x7b.zip" ∧
    suffixChar 25 = 'z' ∧ (suffixChar 26).toNat = 123 := by
  refine ⟨by decide, by decide, by decide, by decide⟩

/-- C2, amended: both suffix searches are monotone and exhaustive-safe in the
weaker sense the code implements: when the loop yields attempt `k`, the
candidate at `k` is free and every earlier attempt `j < k` was occupied, so
collisions consume suffixes `_a`, `_b`, … strictly in encounter order; but no
26-attempt cap exists — past `_z` the scheme continues with the successive
code points after `'z'` instead of raising. -/
theorem C2_suffix_search_monotone_first_free (occupied : String → Bool)
    (base : String) (fuel k : Nat) :
    (renameSuffixSearch occupied base fuel 0 = some k →
      (occupied (renameCandTiff base k) = false ∧
        occupied (renameCandXml base k) = false) ∧
      ∀ j, j < k →
        (occupied (renameCandTiff base j) || occupied (renameCandXml base j)) = true) ∧
    (zipSuffixSearch occupied base fuel 0 = some k →
      occupied (zipCand base k) = false ∧
      ∀ j, j < k → occupied (zipCand base j) = true) := by
  constructor
  · intro h
    obtain ⟨hfree, _, hbusy⟩ := renameSuffixSearch_spec occupied base fuel 0 k h
    exact ⟨hfree, fun j hj => hbusy j (Nat.zero_le _) hj⟩
  · intro h
    obtain ⟨hfree, _, hbusy⟩ := zipSuffixSearch_spec occupied base fuel 0 k h
    exact ⟨hfree, fun j hj => hbusy j (Nat.zero_le _) hj⟩

/-- C2 witness: the amended theorem applied to the 27-collision directory,
where the search lands on attempt 26 (the character after `'z'`). -/
theorem C2_suffix_search_monotone_first_free_witness :
    dupOcc (renameCandTiff "DUP" 26) = false ∧
    (∀ j, j < 26 →
      (dupOcc (renameCandTiff "DUP" j) || dupOcc (renameCandXml "DUP" j)) = true) := by
  have h := (C2_suffix_search_monotone_first_free dupOcc "DUP" 30 26).1 (by decide)
  exact ⟨h.1.1, h.2⟩

/-- C4, counterexample: on `c4attrIdentDoc` the pipeline extractor
(`main.extract_iid_from_xml`) returns the empty string (the whitespace-only
element text passes the truthiness gate, then strips to `""`), whereas the
cascade the claim describes — whitespace treated as not-found, then an
attribute-based lookup — would return `"ABC"`. The code performs no
attribute lookup at all and does not treat whitespace-only text as
not-found. -/
theorem C4_extractor_counterexample :
    extract_iid_from_xml (some c4attrIdentDoc) = .ok "" ∧
    extract_iid_spec_model c4attrIdentDoc = some "ABC" ∧
    ¬ ("" = "ABC") := by
  refine ⟨by rfl, by rfl, by decide⟩

/-- C4, amended: the pipeline extractor tries the namespaced element lookup
first, then the bare element lookup, and returns the stripped text of the
first hit whose RAW text is non-empty (so whitespace-only text is accepted
and yields `""` after stripping, rather than being treated as not-found);
the result never depends on attributes (no attribute lookup); when both
lookups fall through the error is the missing-identifier error, distinct
from the parse-failure error; and the modular-core variant
(`cetamura.core`) is the only one with an attribute lookup, consulted only
after its two bare element lookups miss. -/
theorem C4_extractor_amended (root : XmlElem) :
    (extract_iid_from_xml none = .error IidError.parseError ∧
      IidError.parseError ≠ IidError.missingIid) ∧
    (∀ e, root.descendants.find? isIdentifierNS = some e →
      pyTruthy e.textOf = true →
      extract_iid_from_xml (some root) = .ok (pyStrip (e.textOf.getD ""))) ∧
    (firstHitText root.descendants isIdentifierNS = none →
      ∀ e, root.descendants.find? isIdentifierBare = some e →
        pyTruthy e.textOf = true →
        extract_iid_from_xml (some root) = .ok (pyStrip (e.textOf.getD ""))) ∧
    (firstHitText root.descendants isIdentifierNS = none →
      firstHitText root.descendants isIdentifierBare = none →
      extract_iid_from_xml (some root) = .error IidError.missingIid) ∧
    (∀ t attrs attrs2 x cs,
      extract_iid_from_xml (some (XmlElem.node t attrs x cs)) =
        extract_iid_from_xml (some (XmlElem.node t attrs2 x cs))) ∧
    (firstHitText root.descendants (fun e => e.tagOf == "iid") = none →
      firstHitText root.descendants (fun e => e.tagOf == "IID") = none →
      ∀ v, root.attr "iid" = some v →
        extract_iid_core (some root) = .ok (pyStrip v)) := by
  refine ⟨⟨rfl, by decide⟩, ?_, ?_, ?_, ?_, ?_⟩
  · intro e he ht
    have hfh : firstHitText root.descendants isIdentifierNS =
        some (pyStrip (e.textOf.getD "")) := by
      simp [firstHitText, he, ht]
    simp only [extract_iid_from_xml]
    rw [hfh]
  · intro hns e he ht
    have hfh : firstHitText root.descendants isIdentifierBare =
        some (pyStrip (e.textOf.getD "")) := by
      simp [firstHitText, he, ht]
    simp only [extract_iid_from_xml]
    rw [hns, hfh]
  · intro hns hbare
    simp only [extract_iid_from_xml]
    rw [hns, hbare]
  · intro t attrs attrs2 x cs
    simp only [extract_iid_from_xml, XmlElem.descendants, XmlElem.childrenOf]
  · intro h1 h2 v hv
    simp only [extract_iid_core]
    rw [h1, h2, hv]

/-- C4 witness: the amended theorem at `c4nsDoc` — the namespaced lookup
hits first and the padded text comes back stripped. -/
theorem C4_extractor_amended_witness :
    extract_iid_from_xml (some c4nsDoc) = .ok "FSU_Cetamura_2006" := by
  have h := (C4_extractor_amended c4nsDoc).2.1 c4nsIdent (by rfl) (by decide)
  exact h.trans (by rfl)

/-- C9: in this valid PhotoSet, two metadata records (identifiers `A1` and
`A2`, both substrings of the single image's filename `A1_A2.jpg`) resolve to
the SAME image via the identifier-substring strategy: the pipeline cascade
keeps no used-set, so pairing within a set is not injective. -/
theorem C9_pairing_not_injective :
    validate_photo_set c9set = true ∧
    extract_iid_from_xml c9xml1.doc = .ok "A1" ∧
    extract_iid_from_xml c9xml2.doc = .ok "A2" ∧
    resolveImage c9set c9xml1 "A1" [] = some c9img ∧
    resolveImage c9set c9xml2 "A2" [] = some c9img ∧
    ¬ (c9xml1.path = c9xml2.path) := by
  refine ⟨by rfl, by rfl, by rfl, by rfl, by rfl, by decide⟩

/-- C5: the Pairing Resolver tries, in order: exact stem match,
identifier-substring match, lone-survivor match, global stem index — first
hit wins; a strategy-4 recovery writes the CROSS_LINK audit row naming the
donor directory as its first row; an unresolved record yields exactly the
MISSING_IMAGE warning row (and no effects); and the record loop produces a
result for every metadata file of the set. -/
theorem C5_pairing_cascade (ps : PhotoSet) (xml : XmlFile) (iid : String)
    (gidx : List (String × ImgFile)) (ctx : BatchCtx) (iniInSub : List SrcPath)
    (oS oO : String → Bool) (fuel : Nat) :
    (∀ i, ps.image_files.find? (fun i => i.path.stem == xml.path.stem) = some i →
      resolveImageG ps xml iid gidx = (some i, false)) ∧
    (ps.image_files.find? (fun i => i.path.stem == xml.path.stem) = none →
      ∀ i, ps.image_files.find? (fun i => strContains i.path.name iid) = some i →
        resolveImageG ps xml iid gidx = (some i, false)) ∧
    (ps.image_files.find? (fun i => i.path.stem == xml.path.stem) = none →
      ps.image_files.find? (fun i => strContains i.path.name iid) = none →
      (ps.image_files.length == 1 && ps.xml_files.length == 1) = true →
      resolveImageG ps xml iid gidx = (ps.image_files.head?, false)) ∧
    (ps.image_files.find? (fun i => i.path.stem == xml.path.stem) = none →
      ps.image_files.find? (fun i => strContains i.path.name iid) = none →
      (ps.image_files.length == 1 && ps.xml_files.length == 1) = false →
      (∀ i, indexLookup gidx xml.path.stem = some i →
        resolveImageG ps xml iid gidx = (some i, true)) ∧
      (indexLookup gidx xml.path.stem = none →
        resolveImageG ps xml iid gidx = (none, false))) ∧
    (∀ img, extract_iid_from_xml xml.doc = .ok iid →
      resolveImageG ps xml iid gidx = (some img, true) →
      (recordStep ps gidx ctx iniInSub oS oO fuel xml).rows.head? =
        some ⟨iid, xml.path.render, img.path.render, "WARNING", "CROSS_LINK",
          "Image recovered from: " ++ img.path.parentName⟩) ∧
    (extract_iid_from_xml xml.doc = .ok iid →
      resolveImageG ps xml iid gidx = (none, false) →
      recordStep ps gidx ctx iniInSub oS oO fuel xml =
        ⟨.missingImage, [⟨iid, xml.path.render, "N/A", "WARNING",
          "MISSING_IMAGE", "No matching Image file found"⟩], []⟩) ∧
    ((ps.xml_files.map (recordStep ps gidx ctx iniInSub oS oO fuel)).length =
      ps.xml_files.length) := by
  refine ⟨?_, ?_, ?_, ?_, ?_, ?_, List.length_map _ _⟩
  · intro i hi
    simp only [resolveImageG]
    rw [hi]
  · intro h1 i hi
    simp only [resolveImageG]
    rw [h1, hi]
  · intro h1 h2 h3
    simp only [resolveImageG]
    rw [h1, h2, if_pos h3]
  · intro h1 h2 h3
    constructor
    · intro i hi
      simp only [resolveImageG]
      rw [h1, h2, if_neg (by simp [h3]), hi]
    · intro hi
      simp only [resolveImageG]
      rw [h1, h2, if_neg (by simp [h3]), hi]
  · intro img hiid hres
    simp [recordStep, hiid, hres]
  · intro hiid hres
    simp [recordStep, hiid, hres]

/-- C5 witness: the cascade theorem applied to the cross-directory recovery
scenario — strategies 1-3 miss, the global index hits, and the first audit
row is the CROSS_LINK row naming the donor directory `setB`. -/
theorem C5_pairing_cascade_witness :
    resolveImageG c5set c5xml "FSU_item7" [("item7", c5donor)] = (some c5donor, true) ∧
    (recordStep c5set [("item7", c5donor)] c5ctx [] (fun _ => false)
        (fun _ => false) 9 c5xml).rows.head? =
      some ⟨"FSU_item7", c5xml.path.render, c5donor.path.render, "WARNING",
        "CROSS_LINK", "Image recovered from: setB"⟩ := by
  have h4 := ((C5_pairing_cascade c5set c5xml "FSU_item7" [("item7", c5donor)]
    c5ctx [] (fun _ => false) (fun _ => false) 9).2.2.2.1
    (by rfl) (by rfl) (by rfl)).1 c5donor (by rfl)
  have h5 := (C5_pairing_cascade c5set c5xml "FSU_item7" [("item7", c5donor)]
    c5ctx [] (fun _ => false) (fun _ => false) 9).2.2.2.2.1 c5donor (by rfl) h4
  exact ⟨h4, by rw [h5]; rfl⟩

/-- Helper: the two possible outcomes of one direct-grouping step. -/
theorem directGroupStep_cases (init : List PhotoSet) (g : FileGroup) :
    directGroupStep init g = init ∨
    ∃ m ms, g.manifest_files = m :: ms ∧ g.xml_files ≠ [] ∧
      (init.any (fun q => q.base_directory == g.directory)) = false ∧
      validate_photo_set (mkDirectSet g m) = true ∧
      directGroupStep init g = init ++ [mkDirectSet g m] := by
  unfold directGroupStep
  by_cases hdup : (init.any (fun q => q.base_directory == g.directory)) = true
  · rw [if_pos hdup]
    exact Or.inl rfl
  · rw [if_neg hdup]
    rcases hx : g.xml_files with _ | ⟨x, xs⟩ <;>
      rcases hm : g.manifest_files with _ | ⟨m, ms⟩
    · exact Or.inl rfl
    · exact Or.inl rfl
    · exact Or.inl rfl
    · dsimp only
      by_cases hv : validate_photo_set (mkDirectSet g m) = true
      · rw [if_pos hv]
        exact Or.inr ⟨m, ms, rfl, List.cons_ne_nil _ _, by simpa using hdup, hv, rfl⟩
      · rw [if_neg hv]
        exact Or.inl rfl

/-- Helper: every set the direct-grouping fold adds comes from a group with
at least one XML file and at least one manifest, carries that group's FIRST
manifest, and passed validation. -/
theorem directGroupStep_foldl_mem (gs : List FileGroup) :
    ∀ (init : List PhotoSet) (ps : PhotoSet), ps ∈ gs.foldl directGroupStep init →
      ps ∈ init ∨ ∃ g ∈ gs, ∃ m ms, g.manifest_files = m :: ms ∧
        g.xml_files ≠ [] ∧ ps = mkDirectSet g m ∧ validate_photo_set ps = true := by
  induction gs with
  | nil => intro init ps h; exact Or.inl h
  | cons g gs ih =>
      intro init ps h
      rw [List.foldl_cons] at h
      rcases ih _ ps h with hin | ⟨g', hg', m, ms, hm, hx, hps, hv⟩
      · rcases directGroupStep_cases init g with hcase | ⟨m, ms, hm, hx, _, hv, hcase⟩
        · rw [hcase] at hin
          exact Or.inl hin
        · rw [hcase] at hin
          rcases List.mem_append.mp hin with h1 | h1
          · exact Or.inl h1
          · have hps : ps = mkDirectSet g m := List.mem_singleton.mp h1
            exact Or.inr ⟨g, List.mem_cons_self _ _, m, ms, hm, hx, hps, hps ▸ hv⟩
      · exact Or.inr ⟨g', List.mem_cons_of_mem _ hg', m, ms, hm, hx, hps, hv⟩

/-- C3, counterexample: the directory group holds TWO manifest files, yet the
Set Assembler still constructs a PhotoSet from it — it silently takes the
first manifest (`group['manifest_files'][0]`, "Take first manifest if
multiple") instead of recording a validation failure and refusing the set. -/
theorem C3_multi_manifest_counterexample :
    (group_files_by_directory c3files).map (fun g => g.manifest_files.length) = [2] ∧
    (find_photo_sets_enhanced c3files).map
        (fun ps => (ps.base_directory, ps.manifest_file, ps.structure_type,
          ps.xml_files.length)) =
      [(["root", "d1"], c3man1, "standard", 1)] := by
  exact ⟨rfl, rfl⟩

/-- C3, amended: a PhotoSet is constructed by the direct-grouping pass only
from a group with at least one metadata file and at least ONE manifest (not
exactly one): with several manifests the first is silently taken as the
set's single manifest reference; a zero-manifest group never yields a
PhotoSet, and nothing is recorded for the ambiguous case at assembly time.
Every returned set is either a validated hierarchical set or such a
direct-group set. -/
theorem C3_photoset_construction_amended (files : ScanFiles) (ps : PhotoSet)
    (h : ps ∈ find_photo_sets_enhanced files) :
    ps ∈ (find_hierarchical_sets files).filter validate_photo_set ∨
    ∃ g ∈ group_files_by_directory files, ∃ m ms,
      g.manifest_files = m :: ms ∧ g.xml_files ≠ [] ∧
      ps = mkDirectSet g m ∧ validate_photo_set ps = true := by
  unfold find_photo_sets_enhanced at h
  exact directGroupStep_foldl_mem _ _ _ h

/-- C3 witness: the amended theorem at the two-manifest directory. -/
theorem C3_photoset_construction_amended_witness :
    c3set ∈ (find_hierarchical_sets c3files).filter validate_photo_set ∨
    ∃ g ∈ group_files_by_directory c3files, ∃ m ms,
      g.manifest_files = m :: ms ∧ g.xml_files ≠ [] ∧
      c3set = mkDirectSet g m ∧ validate_photo_set c3set = true := by
  refine C3_photoset_construction_amended c3files c3set ?_
  rw [show find_photo_sets_enhanced c3files = [c3set] from rfl]
  exact List.mem_singleton.mpr rfl

/-- Helper: the direct-grouping fold only appends, and the appended sets'
base directories are pairwise distinct and absent from the initial list. -/
theorem directGroupStep_foldl_extends (gs : List FileGroup) :
    ∀ init : List PhotoSet, ∃ extra,
      gs.foldl directGroupStep init = init ++ extra ∧
      (extra.map (fun ps => ps.base_directory)).Nodup ∧
      ∀ b ∈ extra.map (fun ps => ps.base_directory),
        ¬ b ∈ init.map (fun ps => ps.base_directory) := by
  induction gs with
  | nil => intro init; exact ⟨[], by simp, by simp, by simp⟩
  | cons g gs ih =>
      intro init
      rcases directGroupStep_cases init g with hcase | ⟨m, ms, hm, hx, hdup, hv, hcase⟩
      · obtain ⟨extra, he, hnd, hdis⟩ := ih init
        exact ⟨extra, by rw [List.foldl_cons, hcase, he], hnd, hdis⟩
      · obtain ⟨extra, he, hnd, hdis⟩ := ih (init ++ [mkDirectSet g m])
        have hbase : (mkDirectSet g m).base_directory = g.directory := rfl
        have hnotin : ∀ q ∈ init, ¬ q.base_directory = g.directory := by
          intro q hq heq
          have : init.any (fun q => q.base_directory == g.directory) = true :=
            List.any_eq_true.mpr ⟨q, hq, by simp [heq]⟩
          rw [hdup] at this
          exact Bool.false_ne_true this
        refine ⟨mkDirectSet g m :: extra, ?_, ?_, ?_⟩
        · rw [List.foldl_cons, hcase, he]
          simp
        · rw [List.map_cons]
          refine List.nodup_cons.mpr ⟨?_, hnd⟩
          intro hb
          refine hdis _ hb ?_
          simp [hbase]
        · intro b hb
          rw [List.map_cons] at hb
          rcases List.mem_cons.mp hb with hb1 | hb2
          · subst hb1
            rw [hbase]
            intro hmem
            obtain ⟨q, hq, hqe⟩ := List.mem_map.mp hmem
            exact hnotin q hq hqe
          · intro hmem
            refine hdis b hb2 ?_
            rw [List.map_append]
            exact List.mem_append_left _ hmem

/-- C8, counterexample: with nested manifest directories the hierarchical
pass emits one PhotoSet per manifest for the SAME base directory `A/B` (the
base-directory dedup only filters the direct-grouping pass), so the returned
list repeats a base directory. -/
theorem C8_duplicate_base_counterexample :
    (find_photo_sets_enhanced c8files).map (fun ps => ps.base_directory) =
      [["A", "B"], ["A", "B"]] ∧
    ¬ ((find_photo_sets_enhanced c8files).map
        (fun ps => ps.base_directory)).Nodup := by
  refine ⟨rfl, ?_⟩
  rw [show (find_photo_sets_enhanced c8files).map (fun ps => ps.base_directory) =
    [["A", "B"], ["A", "B"]] from rfl]
  decide

/-- C8, amended: hierarchical sets are computed first and the direct-grouping
pass discards any group whose base directory already appears, so the sets the
direct pass appends have pairwise-distinct base directories, none of which
occurs among the hierarchical sets — but uniqueness over the WHOLE result
fails, because two hierarchical sets born of nested manifest directories can
share a base directory. -/
theorem C8_dedup_amended (files : ScanFiles) :
    ∃ extra, find_photo_sets_enhanced files =
        ((find_hierarchical_sets files).filter validate_photo_set) ++ extra ∧
      (extra.map (fun ps => ps.base_directory)).Nodup ∧
      ∀ b ∈ extra.map (fun ps => ps.base_directory),
        ¬ b ∈ ((find_hierarchical_sets files).filter validate_photo_set).map
          (fun ps => ps.base_directory) := by
  unfold find_photo_sets_enhanced
  exact directGroupStep_foldl_extends _ _

/-- C7: on a clean non-Preview run — input metadata count `n`, audit rows
holding exactly `n` SUCCESS rows, `n` containers on disk, each readable with
exactly three members (one TIFF, one XML, one `manifest.ini`), and no
`*_PROC` leftovers — the reconciliation report shows `n` in all four counts
and an empty discrepancy list (and no orphans). -/
theorem C7_clean_run_reconciliation (n : Nat) (counts : List Nat)
    (rows : List AuditRow) (zips : List ZipFile)
    (hc : counts.sum = n)
    (hr : rows.countP (fun r => r.status == "SUCCESS") = n)
    (hz : zips.length = n)
    (hv : ∀ z ∈ zips, z.readable = true ∧ ∃ t x m, z.namelist = [t, x, m] ∧
      isTiffName t = true ∧ isXmlName x = true ∧ isManifestName m = true) :
    generate_reconciliation_report counts rows zips [] [] =
      ⟨n, n, n, n, [], []⟩ := by
  have hvalid : zips.countP (fun z => (verify_zip_contents z).1) = n := by
    rw [← hz]
    apply List.countP_eq_length.mpr
    intro z hzz
    obtain ⟨hread, t, x, m, hnl, ht, hx2, hm2⟩ := hv z hzz
    simp [verify_zip_contents, hread, hnl, ht, hx2, hm2]
  simp [generate_reconciliation_report, hc, hr, hz, hvalid]

/-- C7 witness: the clean-run theorem at a concrete two-record run (the
SUMMARY row, whose status column reads `Success: 2`, is not counted). -/
theorem C7_clean_run_reconciliation_witness :
    generate_reconciliation_report [2] c7rows [c7zipA, c7zipB] [] [] =
      ⟨2, 2, 2, 2, [], []⟩ := by
  refine C7_clean_run_reconciliation 2 [2] c7rows [c7zipA, c7zipB] rfl (by decide) rfl ?_
  intro z hz
  rcases List.mem_cons.mp hz with h1 | h2
  · subst h1
    exact ⟨rfl, "FSU_A.tiff", "FSU_A.xml", "MANIFEST.ini", rfl, by decide, by decide, by decide⟩
  · have h1 := List.mem_singleton.mp h2
    subst h1
    exact ⟨rfl, "FSU_B.tiff", "FSU_B.xml", "MANIFEST.ini", rfl, by decide, by decide, by decide⟩

/-- C1: on a run whose pre-flight check reports the insufficient-disk-space
blocker (`passed = false`), the call does NOT raise: the abort
`RuntimeError` is caught by the pre-flight phase's own `except Exception`
(main.py 1109), the one record is processed anyway, and the call returns
`(1, 0)` with the report path.  Conversely the call DOES raise on a
non-blocker condition — when the CSV report file cannot be opened.  Both
halves of the claim fail on the code; the raise's own message
("Aborting batch processing.") shows the claim matches the intent. -/
theorem C1_preflight_blocker_swallowed :
    (pre_flight_checks (totalXmlCount (find_photo_sets_enhanced c1files))
        c1env).passed = false ∧
    (pre_flight_checks (totalXmlCount (find_photo_sets_enhanced c1files))
        c1env).blockers = ["Insufficient disk space"] ∧
    (batch_run c1inp 9).map (fun r => (r.success_count, r.error_count)) =
      .ok (1, 0) ∧
    (batch_run c1inpCsvFail 9).isOk = false := by
  exact ⟨rfl, rfl, rfl, rfl⟩

/-- Helper: a flatMap over elements that all map to `[]` is `[]`. -/
theorem flatMap_eq_nil_of_forall {α β : Type} (l : List α) (f : α → List β)
    (h : ∀ x ∈ l, f x = []) : l.flatMap f = [] := by
  induction l with
  | nil => rfl
  | cons a l ih =>
      rw [List.flatMap_cons, h a (List.mem_cons_self _ _),
        ih (fun x hx => h x (List.mem_cons_of_mem _ hx))]
      rfl

/-- Helper: the summary row's status column is never the SUCCESS literal. -/
theorem summaryRow_status_ne_success (s : Nat) :
    ¬ ("Success: " ++ toString s) = "SUCCESS" := by
  intro h
  have hl := congrArg String.length h
  rw [String.length_append] at hl
  have h9 : ("Success: " : String).length = 9 := rfl
  have h7 : ("SUCCESS" : String).length = 7 := rfl
  rw [h9, h7] at hl
  omega

/-- Helper: in dry-run mode one record processing performs no filesystem
effect, and its SUCCESS row (when written) carries the DRY_RUN action. -/
theorem process_dry (image : Option ImgFile) (xml : Option XmlFile)
    (iid : String) (subfolder : List String) (ctx : BatchCtx)
    (iniInSub : List SrcPath) (oS oO : String → Bool) (fuel : Nat)
    (hdry : ctx.dry_run = true) :
    (process_file_set_with_context image xml iid subfolder ctx iniInSub
      oS oO fuel).effects = [] ∧
    ∀ row ∈ (process_file_set_with_context image xml iid subfolder ctx iniInSub
      oS oO fuel).rows, row.status = "SUCCESS" → row.action = "DRY_RUN" := by
  obtain ⟨od, cdry, cstg⟩ := ctx
  have hcd : cdry = true := hdry
  subst hcd
  rcases image with _ | img
  · refine ⟨rfl, ?_⟩
    intro row hrow hst
    have heq := List.mem_singleton.mp hrow
    subst heq
    exact ((by decide : ¬ (("WARNING" : String) = "SUCCESS")) hst).elim
  · refine ⟨rfl, ?_⟩
    intro row hrow hst
    have hrow' : row ∈
        (if img.needs_correction = true then
          [(⟨iid, optXmlRender xml, img.path.render, "INFO", "ORIENTATION",
            "Detected: " ++ img.orientation_name⟩ : AuditRow)]
        else []) ++
        [⟨iid, optXmlRender xml, img.path.render, "SUCCESS", "DRY_RUN",
          dryRunNotes img⟩] := hrow
    rcases List.mem_append.mp hrow' with h1 | h2
    · rcases hni : img.needs_correction with _ | _
      · rw [hni] at h1
        simp at h1
      · rw [hni] at h1
        have heq := List.mem_singleton.mp (by simpa using h1)
        subst heq
        exact ((by decide : ¬ (("INFO" : String) = "SUCCESS")) hst).elim
    · have heq := List.mem_singleton.mp h2
      subst heq
      rfl

/-- Helper: in dry-run mode one record step performs no filesystem effect,
and its SUCCESS rows carry the DRY_RUN action. -/
theorem recordStep_dry (ps : PhotoSet) (gidx : List (String × ImgFile))
    (ctx : BatchCtx) (iniInSub : List SrcPath) (oS oO : String → Bool)
    (fuel : Nat) (xml : XmlFile) (hdry : ctx.dry_run = true) :
    (recordStep ps gidx ctx iniInSub oS oO fuel xml).effects = [] ∧
    ∀ row ∈ (recordStep ps gidx ctx iniInSub oS oO fuel xml).rows,
      row.status = "SUCCESS" → row.action = "DRY_RUN" := by
  rcases hres : extract_iid_from_xml xml.doc with e | iid
  · simp only [recordStep, hres]
    refine ⟨by trivial, ?_⟩
    intro row hrow hst
    have heq := List.mem_singleton.mp hrow
    subst heq
    exact ((by decide : ¬ (("ERROR" : String) = "SUCCESS")) hst).elim
  · rcases himg : resolveImageG ps xml iid gidx with ⟨imgq, via⟩
    rcases imgq with _ | img
    · simp only [recordStep, hres, himg]
      refine ⟨by trivial, ?_⟩
      intro row hrow hst
      have heq := List.mem_singleton.mp hrow
      subst heq
      exact ((by decide : ¬ (("WARNING" : String) = "SUCCESS")) hst).elim
    · obtain ⟨heff, hrows⟩ := process_dry (some img) (some xml) iid
        ps.base_directory ctx iniInSub oS oO fuel hdry
      simp only [recordStep, hres, himg]
      refine ⟨heff, ?_⟩
      intro row hrow hst
      rcases List.mem_append.mp hrow with h1 | h2
      · rcases hv : via with _ | _
        · rw [hv] at h1
          simp at h1
        · rw [hv] at h1
          have heq := List.mem_singleton.mp (by simpa using h1)
          subst heq
          exact ((by decide : ¬ (("WARNING" : String) = "SUCCESS")) hst).elim
      · exact hrows row h2 hst

/-- Helper: the run's outcome when the CSV report cannot be opened. -/
theorem batch_run_csv_fail (inp : RunInput) (fuel : Nat)
    (hop : inp.csvOpenOk = false) :
    batch_run inp fuel =
      .error "Critical error in batch process: cannot open CSV report" := by
  unfold batch_run
  rw [hop]
  rfl

/-- Helper: the explicit shape of a run result when the CSV opens. -/
theorem batch_run_ok_shape (inp : RunInput) (fuel : Nat)
    (hop : inp.csvOpenOk = true) :
    batch_run inp fuel = .ok
      ⟨(runRecs inp fuel).countP (fun r => r.outcome == RecOutcome.success),
        (runRecs inp fuel).countP (fun r =>
          r.outcome == RecOutcome.failure || r.outcome == RecOutcome.extractError),
        ⟨if inp.dryRun then inp.root else outputDirOf inp.root inp.staging,
          inp.csvBase, ".csv"⟩,
        headerRow :: ((runRecs inp fuel).flatMap (fun r => r.rows) ++
          [summaryRow
            ((runRecs inp fuel).countP (fun r => r.outcome == RecOutcome.success))
            ((runRecs inp fuel).countP (fun r =>
              r.outcome == RecOutcome.failure ||
                r.outcome == RecOutcome.extractError))
            inp.dryRun]),
        (if inp.dryRun then [FsEffect.mkdirP inp.root]
          else [FsEffect.mkdirP (outputDirOf inp.root inp.staging)]) ++
          [FsEffect.createFile
            (if inp.dryRun then inp.root else outputDirOf inp.root inp.staging)
            (inp.csvBase ++ ".csv")] ++
          (runRecs inp fuel).flatMap (fun r => r.effects)⟩ := by
  unfold batch_run
  rw [hop]
  rfl

/-- Helper: in a dry run no record step contributes an effect. -/
theorem runRecs_dry_effects (inp : RunInput) (fuel : Nat)
    (hdry : inp.dryRun = true) :
    (runRecs inp fuel).flatMap (fun r => r.effects) = [] := by
  apply flatMap_eq_nil_of_forall
  intro rec hrec
  simp only [runRecs] at hrec
  obtain ⟨ps, _, hrec2⟩ := List.mem_flatMap.mp hrec
  obtain ⟨xml, _, hrec3⟩ := List.mem_map.mp hrec2
  subst hrec3
  exact (recordStep_dry _ _ _ _ _ _ _ _ hdry).1

/-- Helper: shape of a successful dry run: the only filesystem effects are
the (already-existing) source-root mkdir and the CSV report created in the
source root; the report path sits in the source root; every SUCCESS row is
a DRY_RUN row. -/
theorem batch_run_dry_shape (inp : RunInput) (fuel : Nat) (r : RunResult)
    (hdry : inp.dryRun = true) (h : batch_run inp fuel = .ok r) :
    r.effects = [FsEffect.mkdirP inp.root,
      FsEffect.createFile inp.root (inp.csvBase ++ ".csv")] ∧
    r.csvPath = ⟨inp.root, inp.csvBase, ".csv"⟩ ∧
    ∀ row ∈ r.rows, row.status = "SUCCESS" → row.action = "DRY_RUN" := by
  rcases hop : inp.csvOpenOk with _ | _
  · rw [batch_run_csv_fail inp fuel hop] at h
    exact absurd h (by simp)
  · have hval := batch_run_ok_shape inp fuel hop
    rw [h] at hval
    have hr := Except.ok.inj hval
    subst hr
    refine ⟨?_, ?_, ?_⟩
    · rw [runRecs_dry_effects inp fuel hdry]
      simp [hdry]
    · simp [hdry]
    · intro row hrow hst
      rcases List.mem_cons.mp hrow with h1 | h12
      · subst h1
        exact ((by decide : ¬ (("Status" : String) = "SUCCESS")) hst).elim
      · rcases List.mem_append.mp h12 with h2 | h3
        · obtain ⟨rec, hrec, hrow2⟩ := List.mem_flatMap.mp h2
          simp only [runRecs] at hrec
          obtain ⟨ps, _, hrec2⟩ := List.mem_flatMap.mp hrec
          obtain ⟨xml, _, hrec3⟩ := List.mem_map.mp hrec2
          subst hrec3
          exact (recordStep_dry _ _ _ _ _ _ _ _ hdry).2 row hrow2 hst
        · have heq := List.mem_singleton.mp h3
          subst heq
          exact absurd hst (summaryRow_status_ne_success _)

/-- C6, counterexample: in a Preview run, the record whose image cannot be
resolved is written with action MISSING_IMAGE — not DRY_RUN — so not every
per-record audit row of a Preview run carries the DRY_RUN action. -/
theorem C6_preview_row_counterexample :
    (batch_run c6inp 9).map (fun r => r.rows.map (fun row => row.action)) =
      .ok ["Action", "MISSING_IMAGE", "Errors: 0"] ∧
    ¬ (("MISSING_IMAGE" : String) = "DRY_RUN") := by
  exact ⟨rfl, by decide⟩

/-- C6, amended: a Preview run performs no filesystem mutation other than
creating the audit report inside the source root (the output directory is
never created, nothing is deleted or renamed, and no file is created
anywhere but the source root); and every SUCCESS row — i.e. every row
recording a successfully evaluated record — carries the DRY_RUN action,
while warning/info rows (MISSING_IMAGE, CROSS_LINK, ORIENTATION, extraction
errors) keep their own action tags. -/
theorem C6_preview_amended (inp : RunInput) (fuel : Nat) (r : RunResult)
    (hdry : inp.dryRun = true) (h : batch_run inp fuel = .ok r) :
    r.effects = [FsEffect.mkdirP inp.root,
      FsEffect.createFile inp.root (inp.csvBase ++ ".csv")] ∧
    (¬ FsEffect.mkdirP (outputDirOf inp.root inp.staging) ∈ r.effects) ∧
    (∀ eff ∈ r.effects,
      (∀ d n, ¬ eff = FsEffect.deleteFile d n) ∧
      (∀ d1 n1 d2 n2, ¬ eff = FsEffect.renameFile d1 n1 d2 n2) ∧
      (∀ d n, eff = FsEffect.createFile d n → d = inp.root)) ∧
    (∀ row ∈ r.rows, row.status = "SUCCESS" → row.action = "DRY_RUN") := by
  obtain ⟨heff, _, hrows⟩ := batch_run_dry_shape inp fuel r hdry h
  refine ⟨heff, ?_, ?_, hrows⟩
  · rw [heff]
    intro hmem
    rcases List.mem_cons.mp hmem with h1 | h2
    · have hdir : outputDirOf inp.root inp.staging = inp.root :=
        by injection h1
      have hlen := congrArg List.length hdir
      simp [outputDirOf] at hlen
    · have := List.mem_singleton.mp h2
      exact FsEffect.noConfusion this
  · intro eff hmem
    rw [heff] at hmem
    rcases List.mem_cons.mp hmem with h1 | h2
    · subst h1
      exact ⟨fun d n hc => FsEffect.noConfusion hc,
        fun d1 n1 d2 n2 hc => FsEffect.noConfusion hc,
        fun d n hc => FsEffect.noConfusion hc⟩
    · have heq := List.mem_singleton.mp h2
      subst heq
      refine ⟨fun d n hc => FsEffect.noConfusion hc,
        fun d1 n1 d2 n2 hc => FsEffect.noConfusion hc,
        fun d n hc => ?_⟩
      injection hc with hd hn
      exact hd.symm

/-- C6 witness: the amended theorem at the concrete Preview run `c6inp` —
its full effect list is the source-root mkdir plus the report file. -/
theorem C6_preview_amended_witness :
    (batch_run c6inp 9).map (fun r => r.effects) =
      .ok [FsEffect.mkdirP ["r"],
        FsEffect.createFile ["r"] "batch_report_20251012_000001.csv"] := by
  obtain ⟨r, hr⟩ : ∃ r, batch_run c6inp 9 = .ok r := ⟨_, rfl⟩
  have h := (C6_preview_amended c6inp 9 r rfl hr).1
  rw [hr]
  simp only [Except.map]
  rw [h]
  rfl

/-- C10: the audit report is created directly inside the source root in
Preview mode — where it is the run's only file creation — and inside the
output directory (`output` / `staging_output` under the root) in the
Staged and Committed modes. -/
theorem C10_report_location (inp : RunInput) (fuel : Nat) (r : RunResult)
    (h : batch_run inp fuel = .ok r) :
    (inp.dryRun = true →
      r.csvPath = ⟨inp.root, inp.csvBase, ".csv"⟩ ∧
      r.effects.filter isCreateFileEff =
        [FsEffect.createFile inp.root (inp.csvBase ++ ".csv")]) ∧
    (inp.dryRun = false →
      r.csvPath = ⟨outputDirOf inp.root inp.staging, inp.csvBase, ".csv"⟩) := by
  constructor
  · intro hdry
    obtain ⟨heff, hpath, _⟩ := batch_run_dry_shape inp fuel r hdry h
    refine ⟨hpath, ?_⟩
    rw [heff]
    rfl
  · intro hndry
    rcases hop : inp.csvOpenOk with _ | _
    · rw [batch_run_csv_fail inp fuel hop] at h
      exact absurd h (by simp)
    · have hval := batch_run_ok_shape inp fuel hop
      rw [h] at hval
      have hr := Except.ok.inj hval
      subst hr
      simp [hndry]

/-- C10 witness: the location theorem applied to the committed-mode run
`c1inp` (report in `r/output`) and to the Preview run `c6inp` (report in
the source root `r`). -/
theorem C10_report_location_witness :
    (batch_run c1inp 9).map (fun r => r.csvPath.dir) = .ok ["r", "output"] ∧
    (batch_run c6inp 9).map (fun r => r.csvPath.dir) = .ok ["r"] := by
  constructor
  · obtain ⟨r, hr⟩ : ∃ r, batch_run c1inp 9 = .ok r := ⟨_, rfl⟩
    have h := (C10_report_location c1inp 9 r hr).2 rfl
    rw [hr]
    simp only [Except.map]
    rw [h]
    rfl
  · obtain ⟨r, hr⟩ : ∃ r, batch_run c6inp 9 = .ok r := ⟨_, rfl⟩
    have h := ((C10_report_location c6inp 9 r hr).1 rfl).1
    rw [hr]
    simp only [Except.map]
    rw [h]
    rfl


/-- C8 witness: the amended dedup theorem at the nested-manifest input. -/
theorem C8_dedup_amended_witness :
    ∃ extra, find_photo_sets_enhanced c8files =
        ((find_hierarchical_sets c8files).filter validate_photo_set) ++ extra ∧
      (extra.map (fun ps => ps.base_directory)).Nodup ∧
      ∀ b ∈ extra.map (fun ps => ps.base_directory),
        ¬ b ∈ ((find_hierarchical_sets c8files).filter validate_photo_set).map
          (fun ps => ps.base_directory) :=
  C8_dedup_amended c8files

end Cetamura
